import Mathlib

/-!
Shallow embedding of the original logic of `src/streamlit_app.py`
(audio_translator): the audio validity gate `is_audio_valid`, the pivot
translation chain `translate_via_english`, and the audio conversion wrapper
`convert_audio`.  External collaborators (the translation backend, the
soundfile decoder, the subprocess runner) are modelled as oracle functions
passed in as parameters; amplitudes and durations are modelled as exact
rationals.
-/

namespace AudioTranslator

/-- ASCII whitespace as recognised by Python's `str.strip()` / `str.split()`
(space, tab, newline, carriage return, vertical tab, form feed). -/
def pyWS (c : Char) : Bool :=
  c = ' ' || c = '\t' || c = '\n' || c = '\r' || c = '\x0b' || c = '\x0c'

/-- Python `str.strip()` on a character list: drop whitespace from both ends. -/
def pyStripL (l : List Char) : List Char :=
  ((l.dropWhile pyWS).reverse.dropWhile pyWS).reverse

/-- Auxiliary for `pySplit`: `acc` holds the current word, reversed. -/
def pySplitAux : List Char → List Char → List (List Char)
  | [], acc => if acc.isEmpty then [] else [acc.reverse]
  | c :: rest, acc =>
    if pyWS c then
      if acc.isEmpty then pySplitAux rest [] else acc.reverse :: pySplitAux rest []
    else pySplitAux rest (c :: acc)

/-- Python `str.split()` with no argument: split on whitespace runs,
dropping empty tokens. -/
def pySplit (l : List Char) : List (List Char) := pySplitAux l []

/-- Python `" ".join(words)`. -/
def joinWords : List (List Char) → List Char
  | [] => []
  | [w] => w
  | w :: ws => w ++ ' ' :: joinWords ws

/-- `" ".join(text.split())`: collapse whitespace runs to single spaces and
drop leading/trailing whitespace. -/
def wsNorm (l : List Char) : List Char := joinWords (pySplit l)

/-- Python `str.replace(pat, rep)` specialised to the two-character patterns
used in the source (`" ,"` and `" ."`), replacing the pair `a b` by the
single character `r`, leftmost first, non-overlapping. -/
def pyReplace2 (a b r : Char) : List Char → List Char
  | [] => []
  | [x] => [x]
  | x :: y :: rest =>
    if x = a && y = b then r :: pyReplace2 a b r rest
    else x :: pyReplace2 a b r (y :: rest)

/-- The post-processing applied by `translate_via_english` on success:
`text.replace(" ,", ",").replace(" .", ".")`, then `" ".join(text.split())`,
then `text.strip()`. -/
def postprocessL (l : List Char) : List Char :=
  pyStripL (wsNorm (pyReplace2 ' ' '.' '.' (pyReplace2 ' ' ',' ',' l)))

/-- Python `str.strip()` on strings. -/
def pyStrip (s : String) : String := String.mk (pyStripL s.data)

/-- Post-processing on strings. -/
def postprocess (s : String) : String := String.mk (postprocessL s.data)

/-- Oracle for the translation backend: `tr source target text` is
`some result` when `GoogleTranslator(source=source, target=target)
.translate(text)` returns `result`, and `none` when it raises. -/
def Translator : Type := String → String → String → Option String

/-- `translate_via_english` together with the number of backend calls made.
Mirrors the source: empty-strip short-circuit, then the source-to-English
leg when `src_lang != "en"`, then the English-to-target leg when
`tgt_lang != "en"`, post-processing, and the `except` clause mapping any
raised exception to the empty string. -/
def translate_run (tr : Translator) (text src_lang tgt_lang : String) :
    String × Nat :=
  if pyStrip text = "" then ("", 0)
  else
    match (if src_lang ≠ "en" then (tr src_lang "en" text, 1)
           else (some text, 0) : Option String × Nat) with
    | (none, c) => ("", c)
    | (some t1, c1) =>
      match (if tgt_lang ≠ "en" then (tr "en" tgt_lang t1, c1 + 1)
             else (some t1, c1) : Option String × Nat) with
      | (none, c) => ("", c)
      | (some t2, c2) => (postprocess t2, c2)

/-- The string returned by `translate_via_english`. -/
def translate_via_english (tr : Translator) (text src_lang tgt_lang : String) :
    String :=
  (translate_run tr text src_lang tgt_lang).1

/-- Result of a successful `sf.read(path)` call: the decoded amplitude
sequence (`none` models Python `None`) and the sample rate. -/
structure DecodeResult where
  data : Option (List ℚ)
  sr : Int

/-- Oracle for `sf.read`: `none` models a raised decode exception. -/
def Decoder : Type := String → Option DecodeResult

/-- `abs(data).mean()`: mean absolute amplitude. -/
def meanAbs (data : List ℚ) : ℚ :=
  (data.map (fun x => |x|)).sum / (data.length : ℚ)

/-- `is_audio_valid(path, min_sec=0.5)`: returns a validity verdict and the
clip duration in seconds. -/
def is_audio_valid (decode : Decoder) (path : String) (min_sec : ℚ := 1/2) :
    Bool × ℚ :=
  match decode path with
  | none => (false, 0)
  | some res =>
    match res.data with
    | none => (false, 0)
    | some data =>
      if data.length = 0 ∨ res.sr ≤ 0 then (false, 0)
      else
        let duration : ℚ := (data.length : ℚ) / (res.sr : ℚ)
        if duration < min_sec then (false, duration)
        else if meanAbs data < 1/10000 then (false, duration)
        else (true, duration)

/-- Python `in_path.rsplit(".", 1)[0]`: everything before the last dot, or
the whole string when there is no dot. -/
def rsplitDot1 (l : List Char) : List Char :=
  if '.' ∈ l then ((l.reverse.dropWhile (fun c => !(c = '.'))).drop 1).reverse
  else l

/-- `convert_audio(in_path)`: derive the output path, invoke the ffmpeg
subprocess (oracle `run`, returning an exit code that the source never
inspects), and return the output path. -/
def convert_audio (run : List String → Int) (in_path : String) : String :=
  let out := String.mk (rsplitDot1 in_path.data) ++ "_clean.wav"
  let _ := run ["ffmpeg", "-y", "-i", in_path, "-ac", "1", "-ar", "16000", out]
  out

/-- No two adjacent whitespace characters (so no whitespace run of length
two or more). -/
def noDoubleWS : List Char → Bool
  | x :: y :: rest => !(pyWS x && pyWS y) && noDoubleWS (y :: rest)
  | _ => true

/-- Every whitespace character in the list is a plain space. -/
def onlySpaceWS (l : List Char) : Bool := l.all (fun c => !pyWS c || c = ' ')

/-- The first character, when present, is not whitespace. -/
def headNonWS (l : List Char) : Bool := l.head?.all (fun c => !pyWS c)

/-- Some character pair is a space followed directly by a comma or period. -/
def hasSpaceBeforePunct : List Char → Bool
  | x :: y :: rest =>
    (x = ' ' && (y = ',' || y = '.')) || hasSpaceBeforePunct (y :: rest)
  | _ => false

/-- Concrete decoder: a loud clip, 2 samples of amplitude 4/5 at 8 Hz
(duration 1/4 s). -/
def decShort : Decoder := fun _ => some ⟨some [4/5, 4/5], 8⟩

/-- Concrete decoder: a loud clip, 2 samples of amplitude 4/5 at 2 Hz
(duration 1 s). -/
def decLoud : Decoder := fun _ => some ⟨some [4/5, 4/5], 2⟩

/-- Concrete decoder: a near-silent clip, 2 samples at 2 Hz (duration 1 s,
mean absolute amplitude 1/200000). -/
def decQuiet : Decoder := fun _ => some ⟨some [1/100000, 0], 2⟩

/-- Concrete decoder: decoding raises. -/
def decFail : Decoder := fun _ => none

/-- Concrete decoder: decodes to an empty amplitude sequence. -/
def decEmpty : Decoder := fun _ => some ⟨some [], 16000⟩

/-- Concrete translation backend that always raises. -/
def trFail : Translator := fun _ _ _ => none

/-- Concrete translation backend whose Hindi-to-English leg answers `"xyz"`
and whose English-to-anything leg answers `"pqr"`: a round trip through
English that does not restore the input. -/
def trRoundTrip : Translator := fun source _ _ =>
  if source = "hi" then some "xyz" else some "pqr"

/-- Concrete translation backend that answers `"Hi  , there"` (two spaces
before the comma) on every call. -/
def trPunct : Translator := fun _ _ _ => some "Hi  , there"

/-! ### Helper lemmas -/

/-- The guard branch of `is_audio_valid`: zero length or non-positive
sample rate yields `(false, 0)`. -/
theorem is_audio_valid_guard_eq (decode : Decoder) (path : String)
    (min_sec : ℚ) (data : List ℚ) (sr : Int)
    (hdec : decode path = some ⟨some data, sr⟩)
    (h : data.length = 0 ∨ sr ≤ 0) :
    is_audio_valid decode path min_sec = (false, 0) := by
  simp only [is_audio_valid, hdec]
  rw [if_pos h]

/-- A nonempty list with positive sample rate passes the guard. -/
theorem guard_false (data : List ℚ) (sr : Int)
    (hne : data ≠ []) (hsr : 0 < sr) : ¬(data.length = 0 ∨ sr ≤ 0) := by
  rintro (h0 | hle)
  · exact hne (List.length_eq_zero.mp h0)
  · exact absurd hsr (not_lt.mpr hle)

/-- Every word produced by `pySplitAux` on a whitespace-free accumulator is
nonempty and whitespace-free. -/
theorem pySplitAux_words (l : List Char) :
    ∀ acc, (∀ c ∈ acc, pyWS c = false) →
      ∀ w ∈ pySplitAux l acc, w ≠ [] ∧ ∀ c ∈ w, pyWS c = false := by
  induction l with
  | nil =>
    intro acc hacc w hw
    by_cases he : acc.isEmpty
    · simp [pySplitAux, he] at hw
    · simp only [pySplitAux, if_neg he, List.mem_singleton] at hw
      subst hw
      refine ⟨fun hr => he ?_, fun c hc => hacc c (List.mem_reverse.mp hc)⟩
      simp [List.isEmpty_iff, ← List.reverse_eq_nil_iff, hr]
  | cons c rest ih =>
    intro acc hacc w hw
    by_cases hc : pyWS c = true
    · by_cases he : acc.isEmpty
      · simp only [pySplitAux, if_pos hc, if_pos he] at hw
        exact ih [] (by simp) w hw
      · simp only [pySplitAux, if_pos hc, if_neg he, List.mem_cons] at hw
        rcases hw with rfl | hw
        · refine ⟨fun hr => he ?_, fun d hd => hacc d (List.mem_reverse.mp hd)⟩
          simp [List.isEmpty_iff, ← List.reverse_eq_nil_iff, hr]
        · exact ih [] (by simp) w hw
    · simp only [pySplitAux, if_neg hc] at hw
      refine ih (c :: acc) ?_ w hw
      intro d hd
      rcases List.mem_cons.mp hd with rfl | hd
      · simpa using hc
      · exact hacc d hd

/-- Every word produced by `pySplit` is nonempty and whitespace-free. -/
theorem pySplit_words (l : List Char) :
    ∀ w ∈ pySplit l, w ≠ [] ∧ ∀ c ∈ w, pyWS c = false :=
  pySplitAux_words l [] (by simp)

/-- A whitespace-free head preserves `noDoubleWS`. -/
theorem noDoubleWS_cons_of_false (x : Char) (l : List Char)
    (hx : pyWS x = false) (hl : noDoubleWS l = true) :
    noDoubleWS (x :: l) = true := by
  cases l with
  | nil => rfl
  | cons y t => simp [noDoubleWS, hx, hl]

/-- Prepending a whitespace-free word preserves `noDoubleWS`. -/
theorem noDoubleWS_append (w l : List Char)
    (hw : ∀ c ∈ w, pyWS c = false) (hl : noDoubleWS l = true) :
    noDoubleWS (w ++ l) = true := by
  induction w with
  | nil => exact hl
  | cons x t ih =>
    exact noDoubleWS_cons_of_false x (t ++ l) (hw x (List.mem_cons_self x t))
      (ih fun c hc => hw c (List.mem_cons_of_mem x hc))

/-- A whitespace-free list satisfies `noDoubleWS`. -/
theorem noDoubleWS_of_forall (w : List Char)
    (hw : ∀ c ∈ w, pyWS c = false) : noDoubleWS w = true := by
  have := noDoubleWS_append w [] hw rfl
  simpa using this

/-- A single space in front of a list whose head is not whitespace
preserves `noDoubleWS`. -/
theorem noDoubleWS_space_cons (q : List Char)
    (hq : noDoubleWS q = true) (hh : headNonWS q = true) :
    noDoubleWS (' ' :: q) = true := by
  cases q with
  | nil => rfl
  | cons z t =>
    simp only [headNonWS, List.head?, Option.all_some] at hh
    have hz : pyWS z = false := by simpa using hh
    simp [noDoubleWS, hq, hz]

/-- A whitespace-free list has a whitespace-free head. -/
theorem headNonWS_of_forall (l : List Char)
    (h : ∀ c ∈ l, pyWS c = false) : headNonWS l = true := by
  cases l with
  | nil => rfl
  | cons a t =>
    simp only [headNonWS, List.head?, Option.all_some]
    simpa using h a (List.mem_cons_self a t)

/-- The head of an append is the head of a nonempty left part. -/
theorem headNonWS_append_left (a b : List Char) (ha : a ≠ [])
    (h : headNonWS a = true) : headNonWS (a ++ b) = true := by
  cases a with
  | nil => exact absurd rfl ha
  | cons x t => simpa [headNonWS] using h

/-- `joinWords` of a nonempty first word is nonempty. -/
theorem joinWords_ne_nil (v : List Char) (ws : List (List Char))
    (hv : v ≠ []) : joinWords (v :: ws) ≠ [] := by
  cases ws with
  | nil => simpa [joinWords] using hv
  | cons w rest =>
    simp only [joinWords]
    intro h
    exact hv (List.append_eq_nil.mp h).1

/-- `joinWords` of nonempty whitespace-free words has no double whitespace,
only spaces as whitespace, and whitespace-free first and last characters. -/
theorem joinWords_props : ∀ ws : List (List Char),
    (∀ w ∈ ws, w ≠ [] ∧ ∀ c ∈ w, pyWS c = false) →
    noDoubleWS (joinWords ws) = true ∧ onlySpaceWS (joinWords ws) = true ∧
      headNonWS (joinWords ws) = true ∧
      headNonWS (joinWords ws).reverse = true
  | [], _ => by simp [joinWords, noDoubleWS, onlySpaceWS, headNonWS]
  | [w], h => by
    obtain ⟨hne, hall⟩ := h w (List.mem_singleton.mpr rfl)
    refine ⟨noDoubleWS_of_forall w hall, ?_, headNonWS_of_forall w hall,
      headNonWS_of_forall w.reverse fun c hc => hall c (List.mem_reverse.mp hc)⟩
    simp only [joinWords, onlySpaceWS, List.all_eq_true]
    intro c hc
    simp [hall c hc]
  | w :: v :: ws, h => by
    obtain ⟨hwne, hwall⟩ := h w (List.mem_cons_self _ _)
    obtain ⟨hvne, _⟩ := h v (List.mem_cons_of_mem _ (List.mem_cons_self _ _))
    obtain ⟨q1, q2, q3, q4⟩ :=
      joinWords_props (v :: ws) fun u hu => h u (List.mem_cons_of_mem _ hu)
    have hqne : joinWords (v :: ws) ≠ [] := joinWords_ne_nil v ws hvne
    have hj : joinWords (w :: v :: ws) = w ++ ' ' :: joinWords (v :: ws) := rfl
    refine ⟨?_, ?_, ?_, ?_⟩
    · rw [hj]
      exact noDoubleWS_append w _ hwall
        (noDoubleWS_space_cons _ q1 q3)
    · rw [hj]
      simp only [onlySpaceWS, List.all_append, List.all_cons, Bool.and_eq_true]
      refine ⟨?_, by simp [pyWS], ?_⟩
      · simp only [List.all_eq_true]
        intro c hc
        simp [hwall c hc]
      · simpa [onlySpaceWS] using q2
    · rw [hj]
      exact headNonWS_append_left w _ hwne (headNonWS_of_forall w hwall)
    · rw [hj, List.reverse_append, List.reverse_cons, List.append_assoc]
      refine headNonWS_append_left _ _ ?_ q4
      simpa [List.reverse_eq_nil_iff] using hqne

/-- Whitespace-normalisation output: no double whitespace, only spaces,
whitespace-free edges. -/
theorem wsNorm_props (l : List Char) :
    noDoubleWS (wsNorm l) = true ∧ onlySpaceWS (wsNorm l) = true ∧
      headNonWS (wsNorm l) = true ∧ headNonWS (wsNorm l).reverse = true :=
  joinWords_props (pySplit l) (pySplit_words l)

/-- `dropWhile` does nothing when the head is not whitespace. -/
theorem dropWhile_pyWS_eq_self (l : List Char) (h : headNonWS l = true) :
    l.dropWhile pyWS = l := by
  cases l with
  | nil => rfl
  | cons a t =>
    simp only [headNonWS, List.head?, Option.all_some] at h
    have ha : pyWS a = false := by simpa using h
    simp [List.dropWhile_cons, ha]

/-- `pyStripL` does nothing when both edges are whitespace-free. -/
theorem pyStripL_eq_self (l : List Char) (h1 : headNonWS l = true)
    (h2 : headNonWS l.reverse = true) : pyStripL l = l := by
  unfold pyStripL
  rw [dropWhile_pyWS_eq_self l h1, dropWhile_pyWS_eq_self l.reverse h2,
    List.reverse_reverse]

/-- Successful run of both translation legs: the result is the final
backend output post-processed. -/
theorem tve_success (tr : Translator) (text src_lang tgt_lang t1 t2 : String)
    (h0 : pyStrip text ≠ "")
    (h1 : (if src_lang ≠ "en" then tr src_lang "en" text else some text) =
      some t1)
    (h2 : (if tgt_lang ≠ "en" then tr "en" tgt_lang t1 else some t1) =
      some t2) :
    translate_via_english tr text src_lang tgt_lang = postprocess t2 := by
  unfold translate_via_english translate_run
  rw [if_neg h0]
  by_cases hsrc : src_lang ≠ "en"
  · rw [if_pos hsrc] at h1
    rw [if_pos hsrc, h1]
    by_cases htgt : tgt_lang ≠ "en"
    · rw [if_pos htgt] at h2
      dsimp only
      rw [if_pos htgt, h2]
    · rw [if_neg htgt] at h2
      obtain rfl := Option.some.inj h2
      dsimp only
      rw [if_neg htgt]
  · rw [if_neg hsrc] at h1
    obtain rfl := Option.some.inj h1
    rw [if_neg hsrc]
    by_cases htgt : tgt_lang ≠ "en"
    · rw [if_pos htgt] at h2
      dsimp only
      rw [if_pos htgt, h2]
    · rw [if_neg htgt] at h2
      obtain rfl := Option.some.inj h2
      dsimp only
      rw [if_neg htgt]

/-- A raising first leg yields the empty string. -/
theorem tve_fail1 (tr : Translator) (text src_lang tgt_lang : String)
    (hsrc : src_lang ≠ "en") (hn : tr src_lang "en" text = none) :
    translate_via_english tr text src_lang tgt_lang = "" := by
  unfold translate_via_english translate_run
  by_cases h0 : pyStrip text = ""
  · rw [if_pos h0]
  · rw [if_neg h0, if_pos hsrc, hn]

/-- A raising second leg yields the empty string. -/
theorem tve_fail2 (tr : Translator) (text src_lang tgt_lang t1 : String)
    (h1 : (if src_lang ≠ "en" then tr src_lang "en" text else some text) =
      some t1)
    (htgt : tgt_lang ≠ "en") (hn : tr "en" tgt_lang t1 = none) :
    translate_via_english tr text src_lang tgt_lang = "" := by
  unfold translate_via_english translate_run
  by_cases h0 : pyStrip text = ""
  · rw [if_pos h0]
  · rw [if_neg h0]
    by_cases hsrc : src_lang ≠ "en"
    · rw [if_pos hsrc] at h1
      rw [if_pos hsrc, h1]
      dsimp only
      rw [if_pos htgt, hn]
    · rw [if_neg hsrc] at h1
      obtain rfl := Option.some.inj h1
      rw [if_neg hsrc]
      dsimp only
      rw [if_pos htgt, hn]

/-! ### Claims -/

/-- C1 counterexample: with source = target = `"hi"` (a supported code),
both legs are real backend calls (2 calls) and a non-identity round trip
through English changes the text: the result `"pqr"` does not equal the
input `"abc"` even up to whitespace normalisation. -/
theorem C1_counterexample :
    translate_via_english trRoundTrip "abc" "hi" "hi" = "pqr"
    ∧ wsNorm ("pqr".data) ≠ wsNorm ("abc".data)
    ∧ (translate_run trRoundTrip "abc" "hi" "hi").2 = 2 := by decide

/-- C1 amended: only for source = target = `"en"` is
`translate_via_english` a pass-through with 0 backend calls, and the
pass-through applies the full post-processing (whitespace normalisation
plus the space-before-punctuation fix). -/
theorem C1_en_identity (tr : Translator) (text : String)
    (h : pyStrip text ≠ "") :
    translate_run tr text "en" "en" = (postprocess text, 0) := by
  unfold translate_run
  rw [if_neg h]
  simp

/-- C1 witness: `translate_via_english("Hello world", "en", "en")` returns
`"Hello world"` with no backend call, for a backend that always raises. -/
theorem C1_en_identity_witness :
    pyStrip "Hello world" ≠ "" ∧
      translate_run trFail "Hello world" "en" "en" = ("Hello world", 0) := by
  refine ⟨by decide, ?_⟩
  rw [C1_en_identity trFail "Hello world" (by decide)]
  decide

/-- C2: when either backend leg raises, `translate_via_english` catches the
exception and returns the empty string. -/
theorem C2_exception_to_empty (tr : Translator)
    (text src_lang tgt_lang : String)
    (h : (src_lang ≠ "en" ∧ tr src_lang "en" text = none) ∨
         (tgt_lang ≠ "en" ∧ ∃ t1,
           (if src_lang ≠ "en" then tr src_lang "en" text else some text) =
             some t1 ∧
           tr "en" tgt_lang t1 = none)) :
    translate_via_english tr text src_lang tgt_lang = "" := by
  rcases h with ⟨hsrc, hn⟩ | ⟨htgt, t1, h1, hn⟩
  · exact tve_fail1 tr text src_lang tgt_lang hsrc hn
  · exact tve_fail2 tr text src_lang tgt_lang t1 h1 htgt hn

/-- C2 witness: the always-raising backend on a hi→ta request yields `""`. -/
theorem C2_exception_to_empty_witness :
    translate_via_english trFail "namaste" "hi" "ta" = "" :=
  C2_exception_to_empty trFail "namaste" "hi" "ta"
    (Or.inl ⟨by decide, rfl⟩)

/-- C3: whitespace-only input short-circuits to the empty string with no
backend call, for all language codes. -/
theorem C3_blank_short_circuit (tr : Translator)
    (text src_lang tgt_lang : String)
    (h : ∀ c ∈ text.data, pyWS c = true) :
    translate_run tr text src_lang tgt_lang = ("", 0) := by
  have h1 : text.data.dropWhile pyWS = [] := List.dropWhile_eq_nil_iff.mpr h
  have hstrip : pyStrip text = "" := by
    simp [pyStrip, pyStripL, h1]
  unfold translate_run
  rw [if_pos hstrip]

/-- C3 witness: `"  \t"` short-circuits to `("", 0)` even though the
backend would answer `"BOOM"`. -/
theorem C3_blank_short_circuit_witness :
    translate_run (fun _ _ _ => some "BOOM") "  \t" "hi" "ta" = ("", 0) :=
  C3_blank_short_circuit (fun _ _ _ => some "BOOM") "  \t" "hi" "ta"
    (by decide)

/-- C4 counterexample: the source applies the punctuation fix before
whitespace collapsing, so for backend output `"Hi  , there"` (two spaces
before the comma) the returned string `"Hi , there"` still has a stray
space before the comma. -/
theorem C4_counterexample :
    translate_via_english trPunct "x" "hi" "en" = "Hi , there"
    ∧ hasSpaceBeforePunct
        ((translate_via_english trPunct "x" "hi" "en").data) = true := by
  decide

/-- C4 amended: on successful backend legs the result is the final backend
output post-processed (punctuation-space replace, then whitespace collapse,
then trim); the result has whitespace runs collapsed to single spaces, only
spaces as whitespace and trimmed edges, but a space directly before a comma
or period may survive when the backend output had a longer whitespace run
there. -/
theorem C4_postprocessed (tr : Translator)
    (text src_lang tgt_lang t1 t2 : String)
    (h0 : pyStrip text ≠ "")
    (h1 : (if src_lang ≠ "en" then tr src_lang "en" text else some text) =
      some t1)
    (h2 : (if tgt_lang ≠ "en" then tr "en" tgt_lang t1 else some t1) =
      some t2) :
    translate_via_english tr text src_lang tgt_lang = postprocess t2
    ∧ noDoubleWS (postprocess t2).data = true
    ∧ onlySpaceWS (postprocess t2).data = true
    ∧ headNonWS (postprocess t2).data = true
    ∧ headNonWS (postprocess t2).data.reverse = true := by
  obtain ⟨p1, p2, p3, p4⟩ :=
    wsNorm_props (pyReplace2 ' ' '.' '.' (pyReplace2 ' ' ',' ',' t2.data))
  have hfix : postprocessL t2.data =
      wsNorm (pyReplace2 ' ' '.' '.' (pyReplace2 ' ' ',' ',' t2.data)) :=
    pyStripL_eq_self _ p3 p4
  have hdata : (postprocess t2).data = postprocessL t2.data := rfl
  refine ⟨tve_success tr text src_lang tgt_lang t1 t2 h0 h1 h2, ?_, ?_, ?_, ?_⟩
  · rw [hdata, hfix]; exact p1
  · rw [hdata, hfix]; exact p2
  · rw [hdata, hfix]; exact p3
  · rw [hdata, hfix]; exact p4

/-- C4 witness: a hi→en request with backend output `" Hello   world "`
yields the post-processed `"Hello world"`, satisfying the whitespace
properties. -/
theorem C4_postprocessed_witness :
    translate_via_english (fun _ _ _ => some " Hello   world ") "x" "hi" "en"
      = postprocess " Hello   world "
    ∧ noDoubleWS (postprocess " Hello   world ").data = true
    ∧ onlySpaceWS (postprocess " Hello   world ").data = true
    ∧ headNonWS (postprocess " Hello   world ").data = true
    ∧ headNonWS (postprocess " Hello   world ").data.reverse = true :=
  C4_postprocessed (fun _ _ _ => some " Hello   world ") "x" "hi" "en"
    " Hello   world " " Hello   world " (by decide) (by decide) (by decide)

/-- C5: a decodable waveform with duration `len/sr` strictly below the
0.5-second minimum threshold is rejected, with no hypothesis on its
amplitude. -/
theorem C5_short_clip_invalid (decode : Decoder) (path : String)
    (data : List ℚ) (sr : Int)
    (hdec : decode path = some ⟨some data, sr⟩)
    (hne : data ≠ []) (hsr : 0 < sr)
    (hshort : (data.length : ℚ) / (sr : ℚ) < 1/2) :
    (is_audio_valid decode path (1/2)).1 = false := by
  simp only [is_audio_valid, hdec]
  rw [if_neg (guard_false data sr hne hsr), if_pos hshort]

/-- C5 witness: 2 samples of amplitude 4/5 at 8 Hz (duration 1/4 s) is
rejected. -/
theorem C5_short_clip_invalid_witness :
    (is_audio_valid decShort "p" (1/2)).1 = false :=
  C5_short_clip_invalid decShort "p" [4/5, 4/5] 8 rfl (by decide)
    (by decide) (by norm_num)

/-- C6: for a decodable waveform of duration at least the minimum
threshold, the verdict is valid exactly when the mean absolute amplitude
is at least 1/10000. -/
theorem C6_silence_gate (decode : Decoder) (path : String) (min_sec : ℚ)
    (data : List ℚ) (sr : Int)
    (hdec : decode path = some ⟨some data, sr⟩)
    (hne : data ≠ []) (hsr : 0 < sr)
    (hdur : min_sec ≤ (data.length : ℚ) / (sr : ℚ)) :
    (is_audio_valid decode path min_sec).1 = true ↔ 1/10000 ≤ meanAbs data := by
  simp only [is_audio_valid, hdec]
  rw [if_neg (guard_false data sr hne hsr), if_neg (not_lt.mpr hdur)]
  by_cases hm : meanAbs data < 1/10000
  · rw [if_pos hm]
    exact iff_of_false (by simp) (not_le.mpr hm)
  · rw [if_neg hm]
    exact iff_of_true rfl (not_lt.mp hm)

/-- C6 witness: the loud 1-second clip is valid, and the near-silent
1-second clip is invalid. -/
theorem C6_silence_gate_witness :
    (is_audio_valid decLoud "p" (1/2)).1 = true ∧
      (is_audio_valid decQuiet "p" (1/2)).1 ≠ true :=
  ⟨(C6_silence_gate decLoud "p" (1/2) [4/5, 4/5] 2 rfl (by decide) (by decide)
      (by norm_num)).mpr (by norm_num [meanAbs, abs]),
   fun h =>
    absurd ((C6_silence_gate decQuiet "p" (1/2) [1/100000, 0] 2 rfl (by decide)
      (by decide) (by norm_num)).mp h) (by norm_num [meanAbs, abs])⟩

/-- C7: when decoding raises, `is_audio_valid` catches the exception and
returns `(False, 0.0)` instead of propagating it. -/
theorem C7_decode_failure_invalid (decode : Decoder) (path : String)
    (min_sec : ℚ) (h : decode path = none) :
    is_audio_valid decode path min_sec = (false, 0) := by
  simp [is_audio_valid, h]

/-- C7 witness: the always-raising decoder yields `(False, 0.0)`. -/
theorem C7_decode_failure_invalid_witness :
    is_audio_valid decFail "p" (1/2) = (false, 0) :=
  C7_decode_failure_invalid decFail "p" (1/2) rfl

/-- C9: a decode yielding zero samples or a non-positive sample rate is
rejected as `(False, 0.0)` by the guard before the duration division is
reached. -/
theorem C9_division_guard (decode : Decoder) (path : String) (min_sec : ℚ)
    (data : List ℚ) (sr : Int)
    (hdec : decode path = some ⟨some data, sr⟩)
    (h : data = [] ∨ sr ≤ 0) :
    is_audio_valid decode path min_sec = (false, 0) := by
  refine is_audio_valid_guard_eq decode path min_sec data sr hdec ?_
  rcases h with h | h
  · exact Or.inl (by simp [h])
  · exact Or.inr h

/-- C9 witness: an empty decode at 16 kHz yields `(False, 0.0)`. -/
theorem C9_division_guard_witness :
    is_audio_valid decEmpty "p" (1/2) = (false, 0) :=
  C9_division_guard decEmpty "p" (1/2) [] 16000 rfl (Or.inl rfl)

/-- C10: the duration `len(data)/sr` is reported alongside the verdict on
every path through the guards, even when the verdict is invalid, while
decode failures, `None` data, empty data and non-positive sample rates
report duration 0.0. -/
theorem C10_duration_reported (decode : Decoder) (path : String)
    (min_sec : ℚ) :
    (∀ data sr, decode path = some ⟨some data, sr⟩ → data ≠ [] → 0 < sr →
      (is_audio_valid decode path min_sec).2 = (data.length : ℚ) / (sr : ℚ))
    ∧ (decode path = none → (is_audio_valid decode path min_sec).2 = 0)
    ∧ (∀ sr, decode path = some ⟨none, sr⟩ →
        (is_audio_valid decode path min_sec).2 = 0)
    ∧ (∀ data sr, decode path = some ⟨some data, sr⟩ → (data = [] ∨ sr ≤ 0) →
        (is_audio_valid decode path min_sec).2 = 0) := by
  refine ⟨fun data sr hdec hne hsr => ?_,
    fun h => by simp [is_audio_valid, h],
    fun sr h => by simp [is_audio_valid, h],
    fun data sr hdec h => ?_⟩
  · simp only [is_audio_valid, hdec]
    rw [if_neg (guard_false data sr hne hsr)]
    split
    · rfl
    · split <;> rfl
  · have hg : data.length = 0 ∨ sr ≤ 0 := by
      rcases h with h | h
      · exact Or.inl (by simp [h])
      · exact Or.inr h
    rw [is_audio_valid_guard_eq decode path min_sec data sr hdec hg]

/-- C10 witness: the short loud clip reports its true duration 1/4 s even
though rejected, and the raising decoder reports 0. -/
theorem C10_duration_reported_witness :
    (is_audio_valid decShort "p" (1/2)).2 =
      (([(4:ℚ)/5, 4/5].length : ℚ) / ((8 : Int) : ℚ))
    ∧ (is_audio_valid decFail "p" (1/2)).2 = 0 :=
  ⟨(C10_duration_reported decShort "p" (1/2)).1 [4/5, 4/5] 8 rfl (by decide)
      (by decide),
   (C10_duration_reported decFail "p" (1/2)).2.1 rfl⟩

/-- C8: `convert_audio` ignores the subprocess exit status: the returned
path does not depend on the subprocess oracle, and always equals the input
path with everything from the last dot on replaced by `"_clean.wav"` (the
whole path kept when there is no dot). -/
theorem C8_exit_status_ignored (run run2 : List String → Int)
    (in_path : String) :
    convert_audio run in_path = convert_audio run2 in_path
    ∧ convert_audio run in_path =
        String.mk (rsplitDot1 in_path.data) ++ "_clean.wav" :=
  ⟨rfl, rfl⟩

/-! ### Sanity checks on concrete values -/

example : pyStrip "  hi " = "hi" := by decide
example : postprocess "Hi  , there" = "Hi , there" := by decide
example : postprocess "Hello , world ." = "Hello, world." := by decide
example : postprocess "  a   b " = "a b" := by decide
example : convert_audio (fun _ => 0) "audio.mp3" = "audio_clean.wav" := rfl
example : convert_audio (fun _ => 1) "noext" = "noext_clean.wav" := rfl
example : is_audio_valid decFail "p" (1/2) = (false, 0) := rfl
example :
    is_audio_valid decLoud "p" (1/2) = (true, 1) := by
  norm_num [is_audio_valid, decLoud, meanAbs, abs]
example :
    translate_run (fun _ _ _ => some "x") "  " "hi" "ta" = ("", 0) := by decide
example :
    translate_run (fun _ _ _ => none) "abc" "en" "en" = ("abc", 0) := by
  decide

end AudioTranslator
